import Mathlib

/-!
Verification of the query-construction and pagination-resolution core of the
Freshdesk MCP adapter (`src/freshdesk_mcp/server.py`), shallowly embedded in
Lean.  Python dictionaries and JSON values are modelled by an inductive `Json`
type, Python `None` by `Json.null`, and the HTTP transport by explicit oracle
parameters: consulting the oracle is the model of issuing a network request,
so a result that is constant in the oracle was produced without any network
I/O.  Uncaught Python exceptions are modelled by the `Except PyErr` monad;
functions whose Python bodies catch all exceptions are total and always
return `Except.ok`.
-/

/-- JSON values / Python objects flowing through the adapter.  `null` doubles
as Python `None` (the two coincide for everything this code does). -/
inductive Json where
  | null
  | bool (b : Bool)
  | num (n : Int)
  | str (s : String)
  | arr (l : List Json)
  | obj (l : List (String × Json))

/-- Python truthiness (`if x:`) for the values that occur in this program. -/
def pyTruthy : Json → Bool
  | Json.null => false
  | Json.bool b => b
  | Json.num n => n != 0
  | Json.str s => s != ""
  | Json.arr l => !l.isEmpty
  | Json.obj l => !l.isEmpty

/-- Lookup in an object binding list: first binding wins (the objects this
program builds have distinct keys). -/
def pyGetList : List (String × Json) → String → Option Json
  | [], _ => none
  | (k, v) :: rest, key => if k = key then some v else pyGetList rest key

/-- Dictionary lookup, `d[k]` / `d.get(k)` on an object. -/
def pyGetAttr : Json → String → Option Json
  | Json.obj l, key => pyGetList l key
  | _, _ => none

/-- Python `d.get(k)`: missing key yields `None` (`Json.null`). -/
def pyGetD (j : Json) (key : String) : Json :=
  (pyGetAttr j key).getD Json.null

/-- Python `d.get(k, default)`: the default is used only when the key is
missing; a stored `null` is returned as `null`. -/
def pyGetDDef (j : Json) (key : String) (dflt : Json) : Json :=
  (pyGetAttr j key).getD dflt

/-- Python `k in d` key test on a result dictionary. -/
def pyHasKey (j : Json) (key : String) : Bool :=
  match j with
  | Json.obj l => l.any (fun p => p.1 = key)
  | _ => false

/-- The `{"error": msg}` result dictionaries the adapter returns on failure. -/
def errObj (msg : String) : Json :=
  Json.obj [("error", Json.str msg)]

/-- Python whitespace (ASCII fragment of `\s` and `str.strip`). -/
def pyIsSpace (c : Char) : Bool :=
  c = ' ' || c = '\t' || c = '\n' || c = '\r' || c = '\x0b' || c = '\x0c'

/-- Numeric value of a run of decimal digits (Python `int` on the digits
captured by `(\d+)`). -/
def digitsToNat (l : List Char) : Nat :=
  l.foldl (fun n c => n * 10 + (c.toNat - 48)) 0

/-- Decimal digits of a natural number, structural in a fuel argument so that
concrete renderings reduce definitionally; `DL n` below supplies enough fuel. -/
def DLfuel : Nat → Nat → List Char
  | 0, _ => []
  | fuel + 1, n =>
    if n < 10 then [Char.ofNat (48 + n % 10)]
    else DLfuel fuel (n / 10) ++ [Char.ofNat (48 + n % 10)]

/-- Decimal rendering of a natural number (Python `str`/f-string of a
non-negative int), as a character list. -/
def DL (n : Nat) : List Char := DLfuel (n + 1) n

/-- Python `str` of an int (possibly negative). -/
def intStr (n : Int) : String :=
  if n < 0 then String.mk ('-' :: DL n.natAbs) else String.mk (DL n.natAbs)

/-- Python `str` of the JSON values this program interpolates into messages.
Container values never reach an f-string on the paths the claims exercise, so
their rendering is a placeholder. -/
def pyStr : Json → String
  | Json.null => "None"
  | Json.bool b => if b then "True" else "False"
  | Json.num n => intStr n
  | Json.str s => s
  | Json.arr _ => "<list>"
  | Json.obj _ => "<dict>"

/-- Lower-casing for the case-insensitive agent match (`str.lower`, ASCII). -/
def pyLower (s : String) : String := String.mk (s.toList.map Char.toLower)

/-- Python substring test `needle in hay` on character lists. -/
def isSubList (needle hay : List Char) : Bool :=
  match hay with
  | [] => needle.isPrefixOf []
  | _ :: rest => needle.isPrefixOf hay || isSubList needle rest

/-- Python `needle in hay` for strings. -/
def isSubStr (needle hay : String) : Bool := isSubList needle.toList hay.toList

/-- Parsing state of `int(s)` digit groups: Python accepts digits with single
interior underscores (`1_000`), rejecting leading, trailing or doubled
underscores.  `afterDigit` records whether the previous char was a digit. -/
def pyIntDigitsGo : Bool → Nat → List Char → Option Nat
  | afterDigit, acc, [] => if afterDigit then some acc else none
  | afterDigit, acc, c :: rest =>
    if c.isDigit then pyIntDigitsGo true (acc * 10 + (c.toNat - 48)) rest
    else if c = '_' && afterDigit then pyIntDigitsGo false acc rest
    else none

/-- The digit-group part of Python `int(s)` (after sign and whitespace). -/
def pyIntDigits (l : List Char) : Option Nat :=
  match l with
  | [] => none
  | _ => pyIntDigitsGo false 0 l

/-- Python `int(s)` on a string: strip whitespace, optional sign, decimal
digits with interior underscores; `none` models the `ValueError` branch.
(Only the ASCII digit/whitespace fragment is modelled.) -/
def pyInt (s : String) : Option Int :=
  let l := ((s.toList.dropWhile pyIsSpace).reverse.dropWhile pyIsSpace).reverse
  match l with
  | '+' :: rest => (pyIntDigits rest).map Int.ofNat
  | '-' :: rest => (pyIntDigits rest).map (fun n => -(n : Int))
  | rest => (pyIntDigits rest).map Int.ofNat

/-!
Pagination Codec: `parse_link_header` (server.py lines 79-110).  The two
`re.search` calls are embedded by direct simulation of the regex engine on
the specific patterns used, including leftmost-match search, lazy groups and
backtracking: see `searchEntry` (pattern `<(.+?)>;\s*rel="(.+?)"`) and
`searchPage` (pattern `page=(\d+)`).
-/

/-- Lazy group `(.+?)` followed by a literal `"` and end of pattern: the group
is the shortest non-empty prefix whose following character is `"`, every
group character matched by `.` (hence not a newline).  `acc` holds the group
read so far (non-empty). -/
def lazyQuoteGo : List Char → List Char → Option (List Char)
  | _, [] => none
  | acc, c :: rest =>
    if c = '"' then some acc
    else if c = '\n' then none
    else lazyQuoteGo (acc ++ [c]) rest

/-- Matching of `(.+?)"` at the start of `l` (the rel-label group). -/
def lazyQuote : List Char → Option (List Char)
  | [] => none
  | c :: rest => if c = '\n' then none else lazyQuoteGo [c] rest

/-- Matching of `;\s*rel="(.+?)"` at the start of `l`.  The greedy `\s*`
followed by the required literal `r` is equivalent to skipping all leading
whitespace (backtracking from the maximal run can only re-expose whitespace,
never an `r`). -/
def matchRelPart (l : List Char) : Option (List Char) :=
  match l with
  | ';' :: rest =>
    let afterWs := rest.dropWhile pyIsSpace
    if ['r', 'e', 'l', '=', '"'].isPrefixOf afterWs then lazyQuote (afterWs.drop 5)
    else none
  | _ => none

/-- Backtracking over the URL group `(.+?)` of `<(.+?)>;\s*rel="(.+?)"`:
`acc` is the group so far; the group is extended (shortest first, lazily)
until the character after it is `>` and the rest of the pattern matches. -/
def tryG1 : List Char → List Char → Option (List Char × List Char)
  | _, [] => none
  | acc, c :: rest =>
    if c = '\n' then none
    else
      match rest with
      | [] => none
      | d :: rest2 =>
        if d = '>' then
          match matchRelPart rest2 with
          | some rel => some (acc ++ [c], rel)
          | none => tryG1 (acc ++ [c]) rest
        else tryG1 (acc ++ [c]) rest

/-- `re.search` of `<(.+?)>;\s*rel="(.+?)"` in a chunk: leftmost starting
position wins, and a match must start at a `<`. -/
def searchEntry : List Char → Option (List Char × List Char)
  | [] => none
  | c :: rest =>
    if c = '<' then
      match tryG1 [] rest with
      | some r => some r
      | none => searchEntry rest
    else searchEntry rest

/-- `re.search` of `page=(\d+)` in a URL: leftmost literal `page=` followed by
at least one digit; the greedy `(\d+)` takes the maximal digit run. -/
def searchPage : List Char → Option Nat
  | [] => none
  | c :: rest =>
    if ['p', 'a', 'g', 'e', '='].isPrefixOf (c :: rest) then
      let ds := ((c :: rest).drop 5).takeWhile Char.isDigit
      if ds.isEmpty then searchPage rest else some (digitsToNat ds)
    else searchPage rest

/-- Python `link_header.split(",")`: split at every comma, keeping empty
chunks (`"".split(",") == [""]`). -/
def splitOnComma : List Char → List (List Char)
  | [] => [[]]
  | c :: rest =>
    if c = ',' then [] :: splitOnComma rest
    else
      match splitOnComma rest with
      | chunk :: chunks => (c :: chunk) :: chunks
      | [] => [[c]]

/-- Python dict assignment `d[rel] = n` on the pagination dictionary: update
the binding in place if the key exists, append it otherwise. -/
def pyDictSet : List (String × Option Nat) → String → Nat → List (String × Option Nat)
  | [], key, n => [(key, some n)]
  | (k, v) :: rest, key, n =>
    if k = key then (k, some n) :: rest else (k, v) :: pyDictSet rest key n

/-- Python `d.get(k)` on the pagination dictionary: the stored value, with a
missing key and a stored `None` both yielding `none` (exactly how every
caller reads the dictionary). -/
def pyGet : List (String × Option Nat) → String → Option Nat
  | [], _ => none
  | (k, v) :: rest, key => if k = key then v else pyGet rest key

/-- Processing of one comma-separated chunk of the Link header (the body of
the `for link in links` loop, lines 99-108): a chunk that fails either regex
is skipped, otherwise the page number is stored under the captured rel. -/
def linkStep (d : List (String × Option Nat)) (chunk : List Char) : List (String × Option Nat) :=
  match searchEntry chunk with
  | some (url, rel) =>
    match searchPage url with
    | some n => pyDictSet d (String.mk rel) n
    | none => d
  | none => d

/-- `parse_link_header` (lines 79-110): start from
`{"next": None, "prev": None}`, return it for a falsy header, otherwise fold
the chunk processor over the comma-split chunks. -/
def parse_link_header (link_header : String) : List (String × Option Nat) :=
  if link_header = "" then [("next", none), ("prev", none)]
  else (splitOnComma link_header.toList).foldl linkStep [("next", none), ("prev", none)]

/-!
Transport model.  A response carries the HTTP status, the `Link` header and
the JSON-decoded body (`none` models an undecodable body, i.e. a
`response.json()` that raises).  A transport outcome is either a response or
a network-level failure.  `raise_for_status()` raises exactly on status
`>= 400`.
-/

/-- One HTTP response as the adapter observes it. -/
structure HttpResp where
  status : Nat
  link : String
  body : Option Json

/-- Outcome of one `client.get`: response, or network failure with message. -/
abbrev TResp := Except String HttpResp

/-- A request: endpoint URL and flat query parameters. -/
structure Req where
  url : String
  params : List (String × Json)

/-- Uncaught Python exceptions escaping an operation. -/
inductive PyErr where
  | network (msg : String)
  | decode
  | keyErr (k : String)
  | typeErr

/-!
Filter Compiler serialization (server.py lines 398-410): each condition dict
is flattened into index-addressed parameters
`query_hash[i][condition] / [operator] / [type] / [value]` (scalar) or
`query_hash[i][value][j]` (list value, order preserving).  Keys are the
Python f-strings with the indices rendered in decimal.
-/

/-- Key `query_hash[{i}][condition]`. -/
def condKey (i : Nat) : String := "query_hash[" ++ String.mk (DL i) ++ "][condition]"

/-- Key `query_hash[{i}][operator]`. -/
def opKey (i : Nat) : String := "query_hash[" ++ String.mk (DL i) ++ "][operator]"

/-- Key `query_hash[{i}][type]`. -/
def tyKey (i : Nat) : String := "query_hash[" ++ String.mk (DL i) ++ "][type]"

/-- Key `query_hash[{i}][value]`. -/
def valKey (i : Nat) : String := "query_hash[" ++ String.mk (DL i) ++ "][value]"

/-- Key `query_hash[{i}][value][{j}]`. -/
def valIdxKey (i j : Nat) : String :=
  "query_hash[" ++ String.mk (DL i) ++ "][value][" ++ String.mk (DL j) ++ "]"

/-- The value parameters of one condition: a list value is emitted as an
index-addressed sequence, anything else (including a missing value, i.e.
`null`) as a single keyed parameter. -/
def encodeValue (i : Nat) (v : Json) : List (String × Json) :=
  match v with
  | Json.arr l => l.enum.map (fun p => (valIdxKey i p.1, p.2))
  | x => [(valKey i, x)]

/-- The flat parameters of the conditions from position `i` on (the
`for idx, filter_condition in enumerate(filters)` loop, lines 399-410);
`.get` of a missing key contributes `null`, `.get("type", "default")`
defaults the kind tag. -/
def encodeFrom : Nat → List Json → List (String × Json)
  | _, [] => []
  | i, f :: rest =>
    (condKey i, pyGetD f "condition") ::
    (opKey i, pyGetD f "operator") ::
    (tyKey i, pyGetDDef f "type" (Json.str "default")) ::
    (encodeValue i (pyGetD f "value") ++ encodeFrom (i + 1) rest)

/-- The full flat `query_hash` parameter encoding of a FilterSet. -/
def encodeParams (filters : List Json) : List (String × Json) := encodeFrom 0 filters

/-- Pagination metadata attached to successful listing results
(`next_page`/`prev_page` read from the parsed Link header, `None` rendered as
JSON null). -/
def paginationObj (page per_page : Int) (link : String) : Json :=
  Json.obj
    [("current_page", Json.num page),
     ("next_page", match pyGet (parse_link_header link) "next" with
       | some n => Json.num n
       | none => Json.null),
     ("prev_page", match pyGet (parse_link_header link) "prev" with
       | some n => Json.num n
       | none => Json.null),
     ("per_page", Json.num per_page)]

/-- Upstream error text attached by `filter_tickets` to a non-2xx response:
`str(e)` of the `HTTPStatusError` plus, when the error body decodes, the
decoded body (the exact httpx rendering is environment text; the model keeps
its shape as a function of status and body). -/
def upstreamErrText (status : Nat) (body : Option Json) : String :=
  "Failed to filter tickets: HTTP status " ++ String.mk (DL status) ++
    (match body with
     | some j => " - " ++ pyStr j
     | none => "")

/-- The helper-parameter condition dicts built by `filter_tickets`
(lines 350-376). -/
def responderCond (responder_id : String) : Json :=
  Json.obj
    [("condition", Json.str "responder_id"), ("operator", Json.str "is_in"),
     ("type", Json.str "default"), ("value", Json.arr [Json.str responder_id])]

/-- The `status`/`is_in` helper condition with the int-coerced value. -/
def statusCond (status : Int) : Json :=
  Json.obj
    [("condition", Json.str "status"), ("operator", Json.str "is_in"),
     ("type", Json.str "default"), ("value", Json.arr [Json.num status])]

/-- The `priority`/`is_in` helper condition with the int-coerced value. -/
def priorityCond (priority : Int) : Json :=
  Json.obj
    [("condition", Json.str "priority"), ("operator", Json.str "is_in"),
     ("type", Json.str "default"), ("value", Json.arr [Json.num priority])]

/-- Handling of the filtered-listing response (the `try/except` tail of
`filter_tickets`, lines 414-445): network failures and decode failures are
caught into `"An unexpected error occurred: ..."`, `raise_for_status`
failures into the upstream error text, and a 2xx decodable body into the
tickets/pagination/filters result dictionary. -/
def filterRespond (page per_page : Int) (filters : List Json) (o : TResp) : Json :=
  match o with
  | .error msg => errObj ("An unexpected error occurred: " ++ msg)
  | .ok resp =>
    if 400 ≤ resp.status then errObj (upstreamErrText resp.status resp.body)
    else
      match resp.body with
      | none => errObj "An unexpected error occurred: JSONDecodeError"
      | some tickets =>
        Json.obj
          [("tickets", tickets),
           ("pagination", paginationObj page per_page resp.link),
           ("filters_applied", Json.arr filters)]

/-- `filter_tickets` (server.py lines 263-445).  `t` is the transport oracle
for the single `GET /api/_/tickets` call.  Status and priority are modelled
on their int-valued domain (the `int(...)` coercion is the identity there).
The fixed pass-through parameters `order_by`, `order_type`, `exclude` and
`include` keep their default values.  Faithfully to the source, a falsy
`responder_id` (its `None` default, or an empty string) returns the
`"Could not resolve responder details"` dictionary before anything else but
the pagination validation, which makes the
`"At least one filter condition is required"` branch (line 382-383)
unreachable. -/
def filter_tickets (t : Req → TResp) (query_hash : Option (List Json))
    (responder_id : Option String) (status priority : Option Int)
    (page per_page : Int) : Except PyErr Json :=
  if page < 1 then .ok (errObj "Page number must be greater than or equal to 1")
  else if per_page < 1 ∨ per_page > 100 then
    .ok (errObj "Page size must be between 1 and 100")
  else
    match responder_id with
    | some r =>
      if r = "" then .ok (errObj "Could not resolve responder details")
      else
        let filters :=
          [responderCond r] ++
            (match status with | some s => [statusCond s] | none => []) ++
            (match priority with | some p => [priorityCond p] | none => []) ++
            (match query_hash with | some qh => qh | none => [])
        if filters.isEmpty then .ok (errObj "At least one filter condition is required")
        else
          let params :=
            [("page", Json.num page), ("per_page", Json.num per_page),
             ("order_by", Json.str "created_at"), ("order_type", Json.str "desc"),
             ("exclude", Json.str "custom_fields"),
             ("include", Json.str "requester,stats,company,survey")] ++
              encodeParams filters
          .ok (filterRespond page per_page filters (t ⟨"/api/_/tickets", params⟩))
    | none => .ok (errObj "Could not resolve responder details")

/-- Handling of the plain-listing response (the `try/except` tail of
`get_tickets`, lines 236-260). -/
def getTicketsRespond (o : TResp) : Json :=
  match o with
  | .error msg => errObj ("An unexpected error occurred: " ++ msg)
  | .ok resp =>
    if 400 ≤ resp.status then
      errObj ("Failed to fetch tickets: HTTP status " ++ String.mk (DL resp.status))
    else
      match resp.body with
      | none => errObj "An unexpected error occurred: JSONDecodeError"
      | some tickets =>
        Json.obj [("tickets", tickets), ("pagination", paginationObj 1 30 resp.link)]

/-- `get_tickets` (lines 223-260): one listing call, full `try/except`, so
every transport outcome yields a structured dictionary. -/
def get_tickets (t : Req → TResp) : Except PyErr Json :=
  .ok (getTicketsRespond
    (t ⟨"/api/v2/tickets", [("page", Json.num 1), ("per_page", Json.num 30)]⟩))

/-- `get_ticket` (lines 448-456): no `try/except` and no `raise_for_status`;
a network failure or an undecodable body escapes as a raw exception, any
decodable body (even of a non-2xx response) is returned as is. -/
def get_ticket (t : TResp) (ticket_id : Int) : Except PyErr Json :=
  match t with
  | .error msg => .error (PyErr.network msg)
  | .ok resp =>
    match resp.body with
    | none => .error PyErr.decode
    | some j => .ok j

/-- `search_tickets` (lines 493-508): when a ticket id is given, first fetch
that ticket (`get_ticket`, whose exceptions propagate) and read its
`"subject"` (raising on a missing key or a non-dict), then issue the search
call — itself unprotected, so its network/decode failures also escape. -/
def search_tickets (tGet : TResp) (tSearch : TResp) (ticket_id : Option Int)
    (query : Option String) : Except PyErr Json :=
  let afterQuery : Except PyErr (Option String) :=
    match ticket_id with
    | some tid =>
      match get_ticket tGet tid with
      | .error e => .error e
      | .ok ticket =>
        match pyGetAttr ticket "subject" with
        | some v => .ok (some (pyStr v))
        | none => .error (PyErr.keyErr "subject")
    | none => .ok query
  match afterQuery with
  | .error e => .error e
  | .ok _ =>
    match tSearch with
    | .error msg => .error (PyErr.network msg)
    | .ok resp =>
      match resp.body with
      | none => .error PyErr.decode
      | some j => .ok j

/-!
Identity Resolver (server.py lines 113-220).
-/

/-- Outcome of scanning one agent-directory page for a match (the
`for agent in agents` loop, lines 142-148): a first match carrying
`agent["id"]`, no match, or a raised exception (caught by the enclosing
handler, which turns it into "not found"). -/
inductive MRes where
  | noMatch
  | found (v : Json)
  | exc

/-- Evaluation of one conjunct `contact-field and query in field.lower()`:
`hit` when the field is a truthy string containing the query
(case-insensitively), `miss` when the field is falsy or a non-matching
string, `exc` when the field is truthy but not a string (`.lower()` raises).
`q` is already lower-cased. -/
def fieldHit (q : String) (v : Json) : MRes :=
  match v with
  | Json.str s => if s ≠ "" && isSubStr q (pyLower s) then .found Json.null else .noMatch
  | Json.null => .noMatch
  | Json.bool b => if b then .exc else .noMatch
  | Json.num n => if n ≠ 0 then .exc else .noMatch
  | Json.arr l => if l.isEmpty then .noMatch else .exc
  | Json.obj l => if l.isEmpty then .noMatch else .exc

/-- One agent record check (lines 143-148): the contact name is tested before
the contact email; `.get` on a non-dict agent or a non-dict (or null) stored
contact raises; a match returns `agent["id"]`, raising if `"id"` is absent. -/
def agentCheck (q : String) (a : Json) : MRes :=
  match a with
  | Json.obj _ =>
    match pyGetDDef a "contact" (Json.obj []) with
    | Json.obj cl =>
      let idOf : MRes :=
        match pyGetAttr a "id" with
        | some v => .found v
        | none => .exc
      match fieldHit q (pyGetD (Json.obj cl) "name") with
      | .exc => .exc
      | .found _ => idOf
      | .noMatch =>
        match fieldHit q (pyGetD (Json.obj cl) "email") with
        | .exc => .exc
        | .found _ => idOf
        | .noMatch => .noMatch
    | _ => .exc
  | _ => .exc

/-- First-match-wins scan of a directory page, in directory order. -/
def findMatch (q : String) : List Json → MRes
  | [] => .noMatch
  | a :: rest =>
    match agentCheck q a with
    | .noMatch => findMatch q rest
    | .found v => .found v
    | .exc => .exc

/-- Result of the paging loop: a resolved id, `None`, or — since the Python
loop need not terminate — the state of still running after the modelled
number of fetches (`fuel`) has been spent. -/
inductive LoopRes where
  | found (v : Json)
  | notFound
  | stillRunning

/-- The `while page < 100` paging loop of `_resolve_agent_name_to_id`
(lines 131-156).  `t k` is the response to the `k`-th fetch, `page` the
current page number, `fuel` the number of fetches the model still allows;
each iteration with `page < 100` consumes one fetch.  Every caught exception
(network failure, non-2xx status, decode failure, malformed record) ends the
loop with `notFound`; so do an empty or falsy page and a missing or falsy
`next` link.  Note the guard bounds the page NUMBER, not the count of
fetches: a Link header whose `next` does not advance keeps the loop running,
which `stillRunning` makes observable. -/
def resolveLoop (t : Nat → TResp) (q : String) : Nat → Nat → Nat → LoopRes
  | 0, page, _ => if page < 100 then .stillRunning else .notFound
  | fuel + 1, page, k =>
    if page < 100 then
      match t k with
      | .error _ => .notFound
      | .ok resp =>
        if 400 ≤ resp.status then .notFound
        else
          match resp.body with
          | none => .notFound
          | some agents =>
            if !pyTruthy agents then .notFound
            else
              match agents with
              | Json.arr l =>
                match findMatch q l with
                | .found v => .found v
                | .exc => .notFound
                | .noMatch =>
                  match pyGet (parse_link_header resp.link) "next" with
                  | some n =>
                    if n ≠ 0 then resolveLoop t q fuel n (k + 1) else .notFound
                  | none => .notFound
              | _ => .notFound
    else .notFound

/-- `_resolve_agent_name_to_id` (lines 113-160): falsy input short-circuits
to `None`; an input `int(...)` accepts is returned without consulting the
transport; otherwise the paging loop runs from page 1.  The numeric branch
returns an int where the loop branch returns `agent["id"]`, both embedded in
`Json`; `none` (outermost) reports that the loop was still running when the
modelled fuel ran out. -/
def _resolve_agent_name_to_id (t : Nat → TResp) (fuel : Nat) (agent_name : String) :
    Option (Option Json) :=
  if agent_name = "" then some none
  else
    match pyInt agent_name with
    | some n => some (some (Json.num n))
    | none =>
      match resolveLoop t (pyLower agent_name) fuel 1 0 with
      | .found v => some (some v)
      | .notFound => some none
      | .stillRunning => none

/-- `_resolve_agent_id_to_name` (lines 163-195): falsy id short-circuits to
`None`; otherwise one lookup whose failures (network, non-2xx, decode,
non-dict shapes) all yield `None`; the nested `agent.user.name` is returned
only when truthy. -/
def _resolve_agent_id_to_name (t : Json → TResp) (responder_id : Json) : Option Json :=
  if !pyTruthy responder_id then none
  else
    match t responder_id with
    | .error _ => none
    | .ok resp =>
      if 400 ≤ resp.status then none
      else
        match resp.body with
        | none => none
        | some data =>
          match data with
          | Json.obj _ =>
            match pyGetDDef data "agent" (Json.obj []) with
            | Json.obj al =>
              match pyGetDDef (Json.obj al) "user" (Json.obj []) with
              | Json.obj ul =>
                let name := pyGetD (Json.obj ul) "name"
                if pyTruthy name then some name else none
              | _ => none
            | _ => none
          | _ => none

/-- `_get_current_agent_id` (lines 198-220): one bootstrap lookup; the raw
`agent["id"]` value is returned when the `agent` object is truthy and has an
`id` key, every failure yielding `None`. -/
def _get_current_agent_id (t : TResp) : Option Json :=
  match t with
  | .error _ => none
  | .ok resp =>
    if 400 ≤ resp.status then none
    else
      match resp.body with
      | none => none
      | some data =>
        match data with
        | Json.obj _ =>
          let agent := pyGetDDef data "agent" (Json.obj [])
          if pyTruthy agent then
            match pyGetAttr agent "id" with
            | some v => some v
            | none => none
          else none
        | _ => none

/-!
Ticket Query Facade: label helpers and the unresolved-ticket tools
(server.py lines 52-76 and 520-724).
-/

/-- `_get_status_name` (lines 52-63).  The argument is what `ticket.get`
produced: Python `None` — a missing key or a stored JSON null — yields
"Unknown"; a value outside the map falls back to the f-string. -/
def _get_status_name (status_id : Json) : String :=
  match status_id with
  | Json.null => "Unknown"
  | Json.num 0 => "Unresolved"
  | Json.num 2 => "Open"
  | Json.num 3 => "Pending"
  | Json.num 4 => "Resolved"
  | Json.num 5 => "Closed"
  | j => "Unknown (" ++ pyStr j ++ ")"

/-- `_get_priority_name` (lines 66-76). -/
def _get_priority_name (priority_id : Json) : String :=
  match priority_id with
  | Json.null => "Unknown"
  | Json.num 1 => "Low"
  | Json.num 2 => "Medium"
  | Json.num 3 => "High"
  | Json.num 4 => "Urgent"
  | j => "Unknown (" ++ pyStr j ++ ")"

/-- The direct-link URL `https://{domain}/a/tickets/{id}` attached to
formatted tickets. -/
def ticketUrl (domain : String) (ticket_id : Json) : String :=
  "https://" ++ domain ++ "/a/tickets/" ++ pyStr ticket_id

/-- The `fr_due_by` field is appended only when truthy (lines 596-597 and
706-707). -/
def addFrDueBy (base : List (String × Json)) (ticket : Json) : List (String × Json) :=
  if pyTruthy (pyGetD ticket "fr_due_by") then
    base ++ [("first_response_due_by", pyGetD ticket "fr_due_by")]
  else base

/-- One formatted ticket of `my_unresolved_tickets` (lines 580-599). -/
def formatMyTicket (domain : String) (ticket : Json) : Json :=
  Json.obj (addFrDueBy
    [("url", Json.str (ticketUrl domain (pyGetD ticket "id"))),
     ("subject", pyGetDDef ticket "subject" (Json.str "No subject")),
     ("status", Json.str (_get_status_name (pyGetD ticket "status"))),
     ("priority", Json.str (_get_priority_name (pyGetD ticket "priority"))),
     ("resolution_due_by", pyGetDDef ticket "due_by" (Json.str ""))] ticket)

/-- One formatted ticket of `get_all_unresolved_tickets_in_a_squad`
(lines 682-709): the responder id is resolved to a display name through one
`_resolve_agent_id_to_name` call, "Unassigned" for a falsy responder id, and
the literal `Agent ID: {id}` when resolution fails. -/
def formatSquadTicket (domain : String) (tAgent : Json → TResp) (ticket : Json) : Json :=
  let rid := pyGetD ticket "responder_id"
  let responder : Json :=
    if pyTruthy rid then
      match _resolve_agent_id_to_name tAgent rid with
      | some name => name
      | none => Json.str ("Agent ID: " ++ pyStr rid)
    else Json.str "Unassigned"
  Json.obj (addFrDueBy
    [("subject", pyGetDDef ticket "subject" (Json.str "No subject")),
     ("status", Json.str (_get_status_name (pyGetD ticket "status"))),
     ("priority", Json.str (_get_priority_name (pyGetD ticket "priority"))),
     ("responder", responder),
     ("resolution_due_by", pyGetDDef ticket "due_by" (Json.str "")),
     ("url", Json.str (ticketUrl domain (pyGetD ticket "id")))] ticket)

/-- The fixed FilterSet of `my_unresolved_tickets` (lines 550-563). -/
def myUnresolvedQueryHash (assignee_id : Json) : List Json :=
  [Json.obj
     [("condition", Json.str "status"), ("operator", Json.str "is_in"),
      ("type", Json.str "default"), ("value", Json.arr [Json.num 0])],
   Json.obj
     [("condition", Json.str "responder_id"), ("operator", Json.str "is_in"),
      ("type", Json.str "default"), ("value", Json.arr [assignee_id])]]

/-- `my_unresolved_tickets` (lines 520-611): fetch the caller identity,
delegate to `filter_tickets` with `page=1, per_page=30` and no
`responder_id` argument, pass any `"error"` result through, otherwise format
the tickets and attach the count summary.  Iterating a non-list `tickets`
value would raise in the unprotected formatting loop (`typeErr`). -/
def my_unresolved_tickets (domain : String) (tMe : TResp) (tFilter : Req → TResp) :
    Except PyErr Json :=
  match _get_current_agent_id tMe with
  | none => .ok (errObj "Could not fetch current agent ID")
  | some assignee_id =>
    if !pyTruthy assignee_id then .ok (errObj "Could not fetch current agent ID")
    else
      match filter_tickets tFilter (some (myUnresolvedQueryHash assignee_id)) none none none 1 30 with
      | .error e => .error e
      | .ok result =>
        if pyHasKey result "error" then .ok result
        else
          match pyGetDDef result "tickets" (Json.arr []) with
          | Json.arr tickets =>
            let formatted := tickets.map (formatMyTicket domain)
            .ok (Json.obj
              [("summary", Json.str ("Found " ++ String.mk (DL formatted.length) ++
                 " unresolved ticket(s) assigned to you:")),
               ("ticket_count", Json.num formatted.length),
               ("tickets", Json.arr formatted),
               ("pagination", pyGetDDef result "pagination" (Json.obj [])),
               ("raw_tickets", Json.arr tickets)])
          | _ => .error PyErr.typeErr

/-- The fixed FilterSet of `get_all_unresolved_tickets_in_a_squad`
(lines 646-665): unresolved status, the `freshservice_teams`/`L2 Teams`
custom-field condition, and the `team_member` custom-field condition holding
the squad value (JSON null when the argument is absent). -/
def squadQueryHash (squad : Option String) : List Json :=
  [Json.obj
     [("condition", Json.str "status"), ("operator", Json.str "is_in"),
      ("type", Json.str "default"), ("value", Json.arr [Json.num 0])],
   Json.obj
     [("condition", Json.str "freshservice_teams"), ("operator", Json.str "is_in"),
      ("type", Json.str "custom_field"), ("value", Json.arr [Json.str "L2 Teams"])],
   Json.obj
     [("condition", Json.str "team_member"), ("operator", Json.str "is_in"),
      ("type", Json.str "custom_field"),
      ("value", Json.arr [match squad with | some s => Json.str s | none => Json.null])]]

/-- The one-line count summary of the squad tool (lines 712-715): the squad
name is quoted into the summary only when truthy. -/
def squadSummary (count : Nat) (squad : Option String) : String :=
  "Found " ++ String.mk (DL count) ++ " unresolved ticket(s) in squad" ++
    (match squad with
     | some s => if s ≠ "" then " '" ++ s ++ "'" else ""
     | none => "") ++ ":"

/-- `get_all_unresolved_tickets_in_a_squad` (lines 613-724): delegate to
`filter_tickets` with the fixed squad FilterSet, `page=1, per_page=30` and no
`responder_id` argument; pass any `"error"` result through; otherwise format
each ticket (resolving its responder sequentially through `tAgent`) and
attach the count summary. -/
def get_all_unresolved_tickets_in_a_squad (domain : String) (tFilter : Req → TResp)
    (tAgent : Json → TResp) (squad : Option String) : Except PyErr Json :=
  match filter_tickets tFilter (some (squadQueryHash squad)) none none none 1 30 with
  | .error e => .error e
  | .ok result =>
    if pyHasKey result "error" then .ok result
    else
      match pyGetDDef result "tickets" (Json.arr []) with
      | Json.arr tickets =>
        let formatted := tickets.map (formatSquadTicket domain tAgent)
        .ok (Json.obj
          [("summary", Json.str (squadSummary formatted.length squad)),
           ("ticket_count", Json.num formatted.length),
           ("tickets", Json.arr formatted),
           ("pagination", pyGetDDef result "pagination" (Json.obj [])),
           ("raw_tickets", Json.arr tickets)])
      | _ => .error PyErr.typeErr

/-!
The matching decoder for the flat `query_hash` parameter encoding (the
spec's serialization round-trip names a decoder; none ships in the source,
so it is defined here as the sequential inverse of `encodeFrom`): condition
`i` consumes its three tag parameters, then either one scalar value
parameter, or the maximal run of index-addressed value parameters
(an empty run, i.e. a next key that is no value key of `i`, decodes the
empty sequence).
-/

/-- Consume the index-addressed value parameters of condition `i` starting at
value index `j`; returns the decoded value sequence and the remaining
parameters. -/
def decodeValue : Nat → Nat → List (String × Json) → List Json × List (String × Json)
  | _, _, [] => ([], [])
  | i, j, (k, v) :: rest =>
    if k = valIdxKey i j then
      let p := decodeValue i (j + 1) rest
      (v :: p.1, p.2)
    else ([], (k, v) :: rest)

/-- Decode the parameters of condition `i`: its field name, operator, kind
tag and value (scalar, or sequence re-wrapped as a JSON array), plus the
remaining parameters. -/
def decodeCond (i : Nat) (ps : List (String × Json)) :
    Option ((Json × Json × Json × Json) × List (String × Json)) :=
  match ps with
  | (k1, c) :: (k2, o) :: (k3, ty) :: rest =>
    if k1 = condKey i ∧ k2 = opKey i ∧ k3 = tyKey i then
      match rest with
      | [] => some ((c, o, ty, Json.arr []), [])
      | (k4, v) :: rest2 =>
        if k4 = valKey i then some ((c, o, ty, v), rest2)
        else if k4 = valIdxKey i 0 then
          let p := decodeValue i 0 ((k4, v) :: rest2)
          some ((c, o, ty, Json.arr p.1), p.2)
        else some ((c, o, ty, Json.arr []), (k4, v) :: rest2)
    else none
  | _ => none

/-- Decode `n` conditions starting at position `i`, requiring the parameter
list to be exhausted at the end. -/
def decodeFrom : Nat → Nat → List (String × Json) → Option (List (Json × Json × Json × Json))
  | _, 0, ps => match ps with | [] => some [] | _ => none
  | i, n + 1, ps =>
    match decodeCond i ps with
    | some (c, rest) => (decodeFrom (i + 1) n rest).map (fun l => c :: l)
    | none => none

/-- The matching decoder of `encodeParams` for a FilterSet of known length. -/
def decodeParams (n : Nat) (ps : List (String × Json)) :
    Option (List (Json × Json × Json × Json)) :=
  decodeFrom 0 n ps

/-- The field/operator/kind/value quadruple a condition dict carries, read
exactly as the encoder reads it. -/
def condParts (f : Json) : Json × Json × Json × Json :=
  (pyGetD f "condition", pyGetD f "operator",
   pyGetDDef f "type" (Json.str "default"), pyGetD f "value")

/-- A condition dict in the sense of backing `query_hash` format. -/
def Json.isObj : Json → Bool
  | Json.obj _ => true
  | _ => false

/-!
Concrete transport oracles for the evaluation and counterexample theorems.
-/

/-- A transport that is never successfully consulted (results proved equal
under it and under arbitrary oracles were produced without network I/O). -/
def tNoop : Req → TResp := fun _ => Except.error "unreachable"

/-- A response whose body does not decode as JSON. -/
def badResp : TResp := Except.ok ⟨200, "", none⟩

/-- A network-level failure outcome. -/
def failResp : TResp := Except.error "connection refused"

/-- The single unresolved Dracarys ticket of the end-to-end squad scenario:
`status=0`, `priority=2`, `responder_id=777`. -/
def dracarysTicket : Json :=
  Json.obj
    [("id", Json.num 42), ("subject", Json.str "Broken build"),
     ("status", Json.num 0), ("priority", Json.num 2),
     ("responder_id", Json.num 777)]

/-- Squad-scenario transport: the filtered-ticket call returns exactly the
one Dracarys ticket. -/
def tFilterDracarys : Req → TResp :=
  fun _ => Except.ok ⟨200, "", some (Json.arr [dracarysTicket])⟩

/-- Squad-scenario identity transport: resolving any agent id returns the
display name "Jane". -/
def tAgentJane : Json → TResp :=
  fun _ =>
    Except.ok ⟨200, "",
      some (Json.obj
        [("agent", Json.obj [("user", Json.obj [("name", Json.str "Jane")])])])⟩

/-- A directory agent record that never matches the query "zzzquery". -/
def bobAgent : Json :=
  Json.obj
    [("id", Json.num 7),
     ("contact", Json.obj
        [("name", Json.str "Bob Stone"), ("email", Json.str "bob@example.com")])]

/-- A directory transport whose every response is a non-empty, non-matching
page whose Link header advertises `next` page 1: the page number never
advances, defeating the `while page < 100` guard. -/
def tConstLoop : Nat → TResp :=
  fun _ =>
    Except.ok ⟨200, "<https://x/agents?page=1>; rel=\"next\"", some (Json.arr [bobAgent])⟩

/-!
Specification-side rendering of well-formed Link headers, used to quantify
the Pagination Codec claim over every well-formed header: an entry is a URL
and a relation label, rendered `<url>; rel="label"` and joined with `", "`
exactly as upstream services emit the header.
-/

/-- One Link-header entry. -/
structure LinkEntry where
  url : List Char
  rel : List Char

/-- Rendering of one entry: `<url>; rel="label"`. -/
def renderEntryL (e : LinkEntry) : List Char :=
  '<' :: (e.url ++ '>' :: ';' :: ' ' :: ('r' :: 'e' :: 'l' :: '=' :: '"' :: (e.rel ++ ['"'])))

/-- Well-formedness of an entry URL: non-empty, no `>` or newline (so the
URL group captures it exactly) and no comma (so the comma split keeps the
entry whole). -/
def goodUrl (u : List Char) : Prop := u ≠ [] ∧ '>' ∉ u ∧ '\n' ∉ u ∧ ',' ∉ u

/-- Well-formedness of a relation label: non-empty, no quote or newline, no
comma. -/
def goodRel (r : List Char) : Prop := r ≠ [] ∧ '"' ∉ r ∧ '\n' ∉ r ∧ ',' ∉ r

/-- Comma-space join of rendered entries (how Link headers are emitted). -/
def joinComma : List (List Char) → List Char
  | [] => []
  | [x] => x
  | x :: y :: rest => x ++ ',' :: ' ' :: joinComma (y :: rest)

/-- The full rendered Link header of a list of entries. -/
def renderHeader (es : List LinkEntry) : String :=
  String.mk (joinComma (es.map renderEntryL))

/-- The effect of one well-formed entry on the pagination dictionary: a URL
carrying a page number stores it under the entry's relation label. -/
def entryStep (d : List (String × Option Nat)) (e : LinkEntry) : List (String × Option Nat) :=
  match searchPage e.url with
  | some n => pyDictSet d (String.mk e.rel) n
  | none => d

/-- The page number of the last entry with relation `k` whose URL carries
one (later entries overwrite earlier ones, as dict assignment does). -/
def lastPageR (k : String) : List LinkEntry → Option Nat
  | [] => none
  | e :: rest =>
    match lastPageR k rest with
    | some n => some n
    | none => if String.mk e.rel = k then searchPage e.url else none

/-!
Theorems.
-/

set_option maxRecDepth 100000

lemma errObj_ne (s1 s2 : String) (h : s1 ≠ s2) : errObj s1 ≠ errObj s2 := by
  simp [errObj, h]

/-- Claim C4: with `page < 1`, or with `per_page < 1` or `per_page > 100`,
`filter_tickets` fails with the validation error naming the violated bound,
for every combination of the other arguments and independently of the
transport — so before any network I/O and before any filter condition is
built (the page bound is checked first, exactly as in the source). -/
theorem claim_C4_validation :
    (∀ (t : Req → TResp) (qh : Option (List Json)) (r : Option String)
        (s p : Option Int) (pg pp : Int), pg < 1 →
        filter_tickets t qh r s p pg pp =
          .ok (errObj "Page number must be greater than or equal to 1")) ∧
    (∀ (t : Req → TResp) (qh : Option (List Json)) (r : Option String)
        (s p : Option Int) (pg pp : Int), 1 ≤ pg → (pp < 1 ∨ pp > 100) →
        filter_tickets t qh r s p pg pp =
          .ok (errObj "Page size must be between 1 and 100")) := by
  constructor
  · intro t qh r s p pg pp h
    unfold filter_tickets
    rw [if_pos h]
  · intro t qh r s p pg pp h1 h2
    unfold filter_tickets
    rw [if_neg (by omega), if_pos h2]

/-- Witness for C4 at `page = 0` and at `per_page = 101`. -/
theorem claim_C4_validation_witness :
    filter_tickets tNoop none none none none 0 30 =
      .ok (errObj "Page number must be greater than or equal to 1") ∧
    filter_tickets tNoop none none none none 1 101 =
      .ok (errObj "Page size must be between 1 and 100") :=
  ⟨claim_C4_validation.1 tNoop none none none none 0 30 (by decide),
   claim_C4_validation.2 tNoop none none none none 1 101 (by decide) (Or.inr (by decide))⟩

/-- Claim C1: evaluating `filter_tickets` with status, priority, responder
and query hash all absent (and valid paging) returns the
`"Could not resolve responder details"` dictionary — not the
`"At least one filter condition is required"` one the spec requires — and it
does so without consulting the transport (the oracle `tNoop` has no
successful response to offer). -/
theorem claim_C1_eval :
    filter_tickets tNoop none none none none 1 30 =
      .ok (errObj "Could not resolve responder details") ∧
    errObj "Could not resolve responder details" ≠
      errObj "At least one filter condition is required" :=
  ⟨rfl, errObj_ne _ _ (by decide)⟩

/-- Claim C3: the end-to-end squad scenario (squad "Dracarys", transport
returning exactly one ticket with status 0, priority 2, responder 777, and
identity resolution answering "Jane") never reaches the formatting stage:
the unconditional responder guard inside `filter_tickets` makes the squad
tool return the `"Could not resolve responder details"` dictionary instead
of the formatted ticket list. -/
theorem claim_C3_eval :
    get_all_unresolved_tickets_in_a_squad "x.freshdesk.com" tFilterDracarys tAgentJane
        (some "Dracarys") =
      .ok (errObj "Could not resolve responder details") := rfl

/-- Claim C8: a directory transport whose every page is non-empty,
non-matching and advertises `next` page 1 keeps the name-resolution loop
running after 100 fetches (result `none` = still running when the fuel of
100 allowed fetches is spent), because the `while page < 100` guard bounds
the page number, not the number of fetches. -/
theorem claim_C8_eval :
    _resolve_agent_name_to_id tConstLoop 100 "zzzquery" = none := rfl

/-- Claim C9: an input accepted by `int(...)` is returned verbatim, for every
transport oracle and every fuel — in particular without consulting the
transport at all. -/
theorem claim_C9_numeric (t : Nat → TResp) (fuel : Nat) (s : String) (n : Int)
    (h : pyInt s = some n) :
    _resolve_agent_name_to_id t fuel s = some (some (Json.num n)) := by
  have hs : ¬ s = "" := by
    intro he
    subst he
    exact Option.noConfusion h
  unfold _resolve_agent_name_to_id
  rw [if_neg hs, h]

/-- Witness for C9 on the input "12345". -/
theorem claim_C9_numeric_witness :
    _resolve_agent_name_to_id tConstLoop 0 "12345" = some (some (Json.num 12345)) :=
  claim_C9_numeric tConstLoop 0 "12345" 12345 (by decide)

/-- Claim C2 counterexample: with `responder_id` absent but `page = 0`, the
result is the page-validation error, not the
`"Could not resolve responder details"` dictionary — so the claim's
"regardless of ... page, and per_page" fails at this input. -/
theorem claim_C2_cex :
    filter_tickets tNoop none none none none 0 30 =
      .ok (errObj "Page number must be greater than or equal to 1") ∧
    errObj "Page number must be greater than or equal to 1" ≠
      errObj "Could not resolve responder details" :=
  ⟨rfl, errObj_ne _ _ (by decide)⟩

/-- Claim C2 (amended): whenever `responder_id` is `None` or the empty
string and the paging arguments pass validation (`page ≥ 1`,
`1 ≤ per_page ≤ 100`), `filter_tickets` returns the
`"Could not resolve responder details"` dictionary regardless of status,
priority, query hash and transport (so before any HTTP request);
consequently the squad tool — which calls `filter_tickets` with
`page=1, per_page=30` and no responder — always returns that error, and
`my_unresolved_tickets` returns either its own agent-id failure dictionary
or that same error. -/
theorem claim_C2_responder_guard :
    (∀ (t : Req → TResp) (qh : Option (List Json)) (s p : Option Int) (pg pp : Int),
        1 ≤ pg → 1 ≤ pp → pp ≤ 100 →
        filter_tickets t qh none s p pg pp =
          .ok (errObj "Could not resolve responder details")) ∧
    (∀ (t : Req → TResp) (qh : Option (List Json)) (s p : Option Int) (pg pp : Int),
        1 ≤ pg → 1 ≤ pp → pp ≤ 100 →
        filter_tickets t qh (some "") s p pg pp =
          .ok (errObj "Could not resolve responder details")) ∧
    (∀ (domain : String) (tF : Req → TResp) (tA : Json → TResp) (squad : Option String),
        get_all_unresolved_tickets_in_a_squad domain tF tA squad =
          .ok (errObj "Could not resolve responder details")) ∧
    (∀ (domain : String) (tMe : TResp) (tF : Req → TResp),
        my_unresolved_tickets domain tMe tF =
            .ok (errObj "Could not fetch current agent ID") ∨
        my_unresolved_tickets domain tMe tF =
            .ok (errObj "Could not resolve responder details")) := by
  refine ⟨?_, ?_, ?_, ?_⟩
  · intro t qh s p pg pp h1 h2 h3
    unfold filter_tickets
    rw [if_neg (by omega), if_neg (by omega)]
  · intro t qh s p pg pp h1 h2 h3
    unfold filter_tickets
    rw [if_neg (by omega), if_neg (by omega)]
    rfl
  · intro domain tF tA squad
    rfl
  · intro domain tMe tF
    unfold my_unresolved_tickets
    cases h : _get_current_agent_id tMe with
    | none => exact Or.inl rfl
    | some aid =>
      cases hb : pyTruthy aid with
      | false => simp [hb]
      | true =>
        right
        simp only [hb]
        rfl

/-- Witness for the amended C2 at valid paging arguments. -/
theorem claim_C2_responder_guard_witness :
    filter_tickets tNoop (some []) none none none 2 50 =
      .ok (errObj "Could not resolve responder details") :=
  claim_C2_responder_guard.1 tNoop (some []) none none 2 50 (by decide) (by decide) (by decide)

lemma filterRespond_hasKey (page per_page : Int) (filters : List Json) (o : TResp) :
    (pyHasKey (filterRespond page per_page filters o) "error" ||
      pyHasKey (filterRespond page per_page filters o) "tickets") = true := by
  rcases o with msg | resp
  · rfl
  · rcases resp with ⟨st, lk, body⟩
    by_cases h : 400 ≤ st
    · simp only [filterRespond, if_pos h]
      rfl
    · cases body with
      | none => simp only [filterRespond, if_neg h]; rfl
      | some tickets => simp only [filterRespond, if_neg h]; rfl

lemma getTicketsRespond_hasKey (o : TResp) :
    (pyHasKey (getTicketsRespond o) "error" ||
      pyHasKey (getTicketsRespond o) "tickets") = true := by
  rcases o with msg | resp
  · rfl
  · rcases resp with ⟨st, lk, body⟩
    by_cases h : 400 ≤ st
    · simp only [getTicketsRespond, if_pos h]
      rfl
    · cases body with
      | none => simp only [getTicketsRespond, if_neg h]; rfl
      | some tickets => simp only [getTicketsRespond, if_neg h]; rfl

/-- Claim C10 counterexample: `get_ticket` and `search_tickets` do raise on
an undecodable body — the raw decode exception escapes instead of a
structured result with an `"error"` field. -/
theorem claim_C10_cex :
    get_ticket badResp 1 = .error PyErr.decode ∧
    search_tickets badResp badResp (some 1) none = .error PyErr.decode :=
  ⟨rfl, rfl⟩

/-- Claim C10 (amended): the operations wrapped in `try/except`
(`filter_tickets`, `get_tickets`) never raise — for every transport outcome
they return a dictionary carrying either an `"error"` field or the
`"tickets"` field — while the unprotected `get_ticket` and `search_tickets`
propagate network failures (and, per the counterexample, decode failures) as
raw exceptions. -/
theorem claim_C10_error_wrapping :
    (∀ (t : Req → TResp) (qh : Option (List Json)) (r : Option String)
        (s p : Option Int) (pg pp : Int),
        ∃ j, filter_tickets t qh r s p pg pp = .ok j ∧
          (pyHasKey j "error" || pyHasKey j "tickets") = true) ∧
    (∀ t : Req → TResp,
        ∃ j, get_tickets t = .ok j ∧
          (pyHasKey j "error" || pyHasKey j "tickets") = true) ∧
    get_ticket failResp 1 = .error (PyErr.network "connection refused") ∧
    search_tickets failResp badResp (some 1) none =
      .error (PyErr.network "connection refused") := by
  refine ⟨?_, ?_, rfl, rfl⟩
  · intro t qh r s p pg pp
    unfold filter_tickets
    by_cases h1 : pg < 1
    · rw [if_pos h1]
      exact ⟨_, rfl, rfl⟩
    · rw [if_neg h1]
      by_cases h2 : pp < 1 ∨ pp > 100
      · rw [if_pos h2]
        exact ⟨_, rfl, rfl⟩
      · rw [if_neg h2]
        cases r with
        | none => exact ⟨_, rfl, rfl⟩
        | some rr =>
          by_cases h3 : rr = ""
          · simp only [if_pos h3]
            exact ⟨_, rfl, rfl⟩
          · simp only [if_neg h3]
            exact ⟨_, rfl, filterRespond_hasKey _ _ _ _⟩
  · intro t
    exact ⟨_, rfl, getTicketsRespond_hasKey _⟩

lemma digitChar_isDigit (k : Nat) (h : k < 10) : (Char.ofNat (48 + k)).isDigit = true := by
  interval_cases k <;> decide

lemma dlfuel_digits (fuel : Nat) : ∀ n, ∀ c ∈ DLfuel fuel n, c.isDigit = true := by
  induction fuel with
  | zero => intro n c hc; simp [DLfuel] at hc
  | succ f ih =>
    intro n c hc
    simp only [DLfuel] at hc
    by_cases h : n < 10
    · rw [if_pos h] at hc
      simp only [List.mem_singleton] at hc
      subst hc
      exact digitChar_isDigit _ (Nat.mod_lt _ (by omega))
    · rw [if_neg h] at hc
      rcases List.mem_append.mp hc with h1 | h1
      · exact ih _ c h1
      · simp only [List.mem_singleton] at h1
        subst h1
        exact digitChar_isDigit _ (Nat.mod_lt _ (by omega))

lemma dl_digits (n : Nat) : ∀ c ∈ DL n, c.isDigit = true := dlfuel_digits _ n

lemma append_digit_split (a : List Char) : ∀ (b t1 t2 : List Char),
    (∀ c ∈ a, c.isDigit = true) → (∀ c ∈ b, c.isDigit = true) →
    a ++ ']' :: t1 = b ++ ']' :: t2 → a = b ∧ t1 = t2 := by
  induction a with
  | nil =>
    intro b t1 t2 _ hb h
    cases b with
    | nil => simp only [List.nil_append] at h; exact ⟨rfl, by injection h⟩
    | cons d b2 =>
      exfalso
      simp only [List.nil_append, List.cons_append] at h
      have hd : d = ']' := (List.cons.inj h).1.symm
      have := hb d (List.mem_cons_self _ _)
      rw [hd] at this
      exact absurd this (by decide)
  | cons c a2 ih =>
    intro b t1 t2 ha hb h
    cases b with
    | nil =>
      exfalso
      simp only [List.nil_append, List.cons_append] at h
      have hc : c = ']' := (List.cons.inj h).1
      have := ha c (List.mem_cons_self _ _)
      rw [hc] at this
      exact absurd this (by decide)
    | cons d b2 =>
      simp only [List.cons_append] at h
      have h1 := (List.cons.inj h).1
      have h2 := (List.cons.inj h).2
      have := ih b2 t1 t2 (fun x hx => ha x (List.mem_cons_of_mem _ hx))
        (fun x hx => hb x (List.mem_cons_of_mem _ hx)) h2
      exact ⟨by rw [h1, this.1], this.2⟩

lemma condKey_toList (i : Nat) :
    (condKey i).toList = "query_hash[".toList ++ (DL i ++ ']' :: "[condition]".toList) := by
  show ("query_hash[".toList ++ DL i) ++ "][condition]".toList = _
  simp [List.append_assoc]

lemma valKey_toList (i : Nat) :
    (valKey i).toList = "query_hash[".toList ++ (DL i ++ ']' :: "[value]".toList) := by
  show ("query_hash[".toList ++ DL i) ++ "][value]".toList = _
  simp [List.append_assoc]

lemma valIdxKey_toList (i j : Nat) :
    (valIdxKey i j).toList =
      "query_hash[".toList ++ (DL i ++ ']' :: ("[value][".toList ++ DL j ++ [']'])) := by
  show ((("query_hash[".toList ++ DL i) ++ "][value][".toList) ++ DL j) ++ "]".toList = _
  simp [List.append_assoc]

lemma toList_injective (a b : String) (h : a.toList = b.toList) : a = b := by
  cases a
  cases b
  simp only [String.toList] at h
  exact congrArg String.mk h

lemma condKey_ne_valIdxKey (a i j : Nat) : condKey a ≠ valIdxKey i j := by
  intro h
  have hl := congrArg String.toList h
  rw [condKey_toList, valIdxKey_toList] at hl
  have hc := List.append_cancel_left hl
  have := (append_digit_split _ _ _ _ (dl_digits a) (dl_digits i) hc).2
  simp at this

lemma condKey_ne_valKey (a i : Nat) : condKey a ≠ valKey i := by
  intro h
  have hl := congrArg String.toList h
  rw [condKey_toList, valKey_toList] at hl
  have hc := List.append_cancel_left hl
  have := (append_digit_split _ _ _ _ (dl_digits a) (dl_digits i) hc).2
  simp at this

lemma valIdxKey_ne_valKey (i j k : Nat) : valIdxKey i j ≠ valKey k := by
  intro h
  have hl := congrArg String.toList h
  rw [valIdxKey_toList, valKey_toList] at hl
  have hc := List.append_cancel_left hl
  have := (append_digit_split _ _ _ _ (dl_digits i) (dl_digits k) hc).2
  have hlen := congrArg List.length this
  simp [List.length_append] at hlen


lemma decodeValue_spec (i : Nat) (elems : List Json) : ∀ (j : Nat) (tail : List (String × Json)),
    (tail = [] ∨ ∃ kk v tt, tail = (kk, v) :: tt ∧ ∀ m : Nat, kk ≠ valIdxKey i m) →
    decodeValue i j ((List.enumFrom j elems).map (fun p => (valIdxKey i p.1, p.2)) ++ tail)
      = (elems, tail) := by
  induction elems with
  | nil =>
    intro j tail htail
    simp only [List.enumFrom, List.map_nil, List.nil_append]
    rcases htail with h0 | ⟨kk, v, tt, he, hne⟩
    · subst h0; rfl
    · subst he
      simp only [decodeValue, if_neg (hne j)]
  | cons x xs ih =>
    intro j tail htail
    simp only [List.enumFrom, List.map_cons, List.cons_append]
    simp only [decodeValue]
    rw [ih (j + 1) tail htail]
    simp

lemma encodeFrom_cons (i : Nat) (f : Json) (rest : List Json) :
    encodeFrom i (f :: rest) =
      (condKey i, pyGetD f "condition") :: (opKey i, pyGetD f "operator") ::
        (tyKey i, pyGetDDef f "type" (Json.str "default")) ::
        (encodeValue i (pyGetD f "value") ++ encodeFrom (i + 1) rest) := rfl

lemma decodeCond_encode (i : Nat) (c o ty v : Json) (E : List (String × Json))
    (hE : E = [] ∨ ∃ kk vv tt, E = (kk, vv) :: tt ∧ kk = condKey (i + 1)) :
    decodeCond i ((condKey i, c) :: (opKey i, o) :: (tyKey i, ty) :: (encodeValue i v ++ E)) =
      some ((c, o, ty, v), E) := by
  cases v with
  | arr l =>
    cases l with
    | nil =>
      rcases hE with h0 | ⟨kk, vv, tt, he, hk⟩
      · subst h0
        simp [decodeCond, encodeValue]
      · subst he
        subst hk
        simp only [encodeValue, List.enum, List.enumFrom, List.map_nil, List.nil_append]
        simp only [decodeCond]
        rw [if_neg (condKey_ne_valKey (i + 1) i), if_neg (condKey_ne_valIdxKey (i + 1) i 0)]
        simp
    | cons x xs =>
      have hside : E = [] ∨ ∃ kk vv tt, E = (kk, vv) :: tt ∧ ∀ m : Nat, kk ≠ valIdxKey i m := by
        rcases hE with h0 | ⟨kk, vv, tt, he, hk⟩
        · exact Or.inl h0
        · exact Or.inr ⟨kk, vv, tt, he,
            fun m => by rw [hk]; exact condKey_ne_valIdxKey (i + 1) i m⟩
      have hdv := decodeValue_spec i (x :: xs) 0 E hside
      simp only [List.enumFrom, List.map_cons, List.cons_append] at hdv
      simp only [encodeValue, List.enum, List.enumFrom, List.map_cons, List.cons_append]
      simp only [decodeCond]
      rw [if_neg (valIdxKey_ne_valKey i 0 i)]
      rw [hdv]
      simp
  | null =>
    simp [decodeCond, encodeValue]
  | bool b =>
    simp [decodeCond, encodeValue]
  | num n =>
    simp [decodeCond, encodeValue]
  | str s =>
    simp [decodeCond, encodeValue]
  | obj ol =>
    simp [decodeCond, encodeValue]

lemma decode_encode (filters : List Json) :
    ∀ i, decodeFrom i filters.length (encodeFrom i filters) = some (filters.map condParts) := by
  induction filters with
  | nil => intro i; rfl
  | cons f rest ih =>
    intro i
    have hE : encodeFrom (i + 1) rest = [] ∨
        ∃ kk vv tt, encodeFrom (i + 1) rest = (kk, vv) :: tt ∧ kk = condKey (i + 1) := by
      cases rest with
      | nil => exact Or.inl rfl
      | cons g rest3 =>
        exact Or.inr ⟨condKey (i + 1), pyGetD g "condition", _, encodeFrom_cons _ _ _, rfl⟩
    rw [encodeFrom_cons]
    simp only [List.length_cons, List.map_cons, decodeFrom]
    rw [decodeCond_encode i _ _ _ _ _ hE]
    simp [ih (i + 1), condParts]

/-- Claim C7: serializing a FilterSet into the flat index-addressed
`query_hash[i][...]` parameters and decoding them back with the matching
decoder reproduces each condition's field name, operator, kind tag and value
sequence, in order. -/
theorem claim_C7_roundtrip (filters : List Json)
    (hobj : ∀ f ∈ filters, Json.isObj f = true) :
    decodeParams filters.length (encodeParams filters) = some (filters.map condParts) :=
  decode_encode filters 0

/-- Witness for C7 on a two-condition FilterSet with a sequence value and a
scalar value. -/
theorem claim_C7_roundtrip_witness :
    decodeParams 2
        (encodeParams
          [Json.obj
             [("condition", Json.str "status"), ("operator", Json.str "is_in"),
              ("type", Json.str "default"), ("value", Json.arr [Json.num 0, Json.num 4])],
           Json.obj
             [("condition", Json.str "cf_request_for"), ("operator", Json.str "is"),
              ("type", Json.str "custom_field"), ("value", Json.str "ITPM")]]) =
      some
        [(Json.str "status", Json.str "is_in", Json.str "default",
          Json.arr [Json.num 0, Json.num 4]),
         (Json.str "cf_request_for", Json.str "is", Json.str "custom_field",
          Json.str "ITPM")] := by
  have h := claim_C7_roundtrip
    [Json.obj
       [("condition", Json.str "status"), ("operator", Json.str "is_in"),
        ("type", Json.str "default"), ("value", Json.arr [Json.num 0, Json.num 4])],
     Json.obj
       [("condition", Json.str "cf_request_for"), ("operator", Json.str "is"),
        ("type", Json.str "custom_field"), ("value", Json.str "ITPM")]]
    (by
      intro f hf
      simp only [List.mem_cons, List.not_mem_nil, or_false] at hf
      rcases hf with rfl | rfl <;> rfl)
  exact h

lemma searchEntry_cons_ne (c : Char) (l : List Char) (h : ¬ c = '<') :
    searchEntry (c :: l) = searchEntry l := by
  simp only [searchEntry, if_neg h]

lemma lazyQuoteGo_closed (r : List Char) : ∀ (acc rest : List Char),
    '"' ∉ r → '\n' ∉ r →
    lazyQuoteGo acc (r ++ '"' :: rest) = some (acc ++ r) := by
  induction r with
  | nil =>
    intro acc rest _ _
    simp [lazyQuoteGo]
  | cons c r2 ih =>
    intro acc rest hq hn
    have hc1 : ¬ c = '"' := fun hh => hq (by rw [← hh]; exact List.mem_cons_self _ _)
    have hc2 : ¬ c = '\n' := fun hh => hn (by rw [← hh]; exact List.mem_cons_self _ _)
    simp only [List.cons_append, lazyQuoteGo]
    rw [if_neg hc1, if_neg hc2]
    have h2 := ih (acc ++ [c]) rest (fun hh => hq (List.mem_cons_of_mem _ hh))
      (fun hh => hn (List.mem_cons_of_mem _ hh))
    simpa using h2

lemma lazyQuote_closed (r : List Char) (rest : List Char) (hne : r ≠ [])
    (hq : '"' ∉ r) (hn : '\n' ∉ r) :
    lazyQuote (r ++ '"' :: rest) = some r := by
  cases r with
  | nil => exact absurd rfl hne
  | cons c r2 =>
    have hc2 : ¬ c = '\n' := fun hh => hn (by rw [← hh]; exact List.mem_cons_self _ _)
    simp only [List.cons_append, lazyQuote]
    rw [if_neg hc2]
    have h2 := lazyQuoteGo_closed r2 [c] rest (fun hh => hq (List.mem_cons_of_mem _ hh))
      (fun hh => hn (List.mem_cons_of_mem _ hh))
    simpa using h2

lemma dropWhile_all_append (p : Char → Bool) (ws : List Char) : ∀ l : List Char,
    (∀ c ∈ ws, p c = true) → List.dropWhile p (ws ++ l) = List.dropWhile p l := by
  induction ws with
  | nil => intro l _; rfl
  | cons w ws2 ih =>
    intro l hws
    simp only [List.cons_append, List.dropWhile]
    rw [hws w (List.mem_cons_self _ _)]
    exact ih l (fun c hc => hws c (List.mem_cons_of_mem _ hc))

lemma matchRelPart_closed (ws r rest : List Char)
    (hws : ∀ c ∈ ws, pyIsSpace c = true) (hne : r ≠ []) (hq : '"' ∉ r) (hn : '\n' ∉ r) :
    matchRelPart (';' :: (ws ++ ('r' :: 'e' :: 'l' :: '=' :: '"' :: (r ++ '"' :: rest)))) =
      some r := by
  simp only [matchRelPart]
  rw [dropWhile_all_append pyIsSpace ws _ hws]
  rw [show List.dropWhile pyIsSpace ('r' :: 'e' :: 'l' :: '=' :: '"' :: (r ++ '"' :: rest)) =
      'r' :: 'e' :: 'l' :: '=' :: '"' :: (r ++ '"' :: rest) from rfl]
  rw [show List.isPrefixOf ['r', 'e', 'l', '=', '"']
      ('r' :: 'e' :: 'l' :: '=' :: '"' :: (r ++ '"' :: rest)) = true from by
    simp [List.isPrefixOf]]
  simp only [if_true, List.drop]
  exact lazyQuote_closed r rest hne hq hn

lemma tryG1_step (acc : List Char) (c : Char) (l : List Char) (hc : ¬ c = '\n') :
    tryG1 acc (c :: l) =
      match l with
      | [] => none
      | d :: rest2 =>
        if d = '>' then
          match matchRelPart rest2 with
          | some rel => some (acc ++ [c], rel)
          | none => tryG1 (acc ++ [c]) l
        else tryG1 (acc ++ [c]) l := by
  simp only [tryG1, if_neg hc]

lemma tryG1_closed (u : List Char) : ∀ (acc rest rel : List Char),
    u ≠ [] → '>' ∉ u → '\n' ∉ u → matchRelPart rest = some rel →
    tryG1 acc (u ++ '>' :: rest) = some (acc ++ u, rel) := by
  induction u with
  | nil => intro acc rest rel hne _ _ _; exact absurd rfl hne
  | cons c u2 ih =>
    intro acc rest rel _ hgt hn hm
    have hc1 : ¬ c = '\n' := fun hh => hn (by rw [← hh]; exact List.mem_cons_self _ _)
    cases u2 with
    | nil =>
      simp only [List.cons_append, List.nil_append]
      rw [tryG1_step acc c ('>' :: rest) hc1]
      simp [hm]
    | cons d u3 =>
      have hd : ¬ d = '>' :=
        fun hh => hgt (by rw [← hh]; exact List.mem_cons_of_mem _ (List.mem_cons_self _ _))
      simp only [List.cons_append]
      rw [tryG1_step acc c _ hc1]
      simp only [if_neg hd]
      have h2 := ih (acc ++ [c]) rest rel (by simp)
        (fun hh => hgt (List.mem_cons_of_mem _ hh))
        (fun hh => hn (List.mem_cons_of_mem _ hh)) hm
      simp only [List.cons_append] at h2
      simpa using h2

lemma searchEntry_chunk (pre : List Char) : ∀ (u rest rel : List Char),
    (∀ c ∈ pre, ¬ c = '<') → u ≠ [] → '>' ∉ u → '\n' ∉ u →
    matchRelPart rest = some rel →
    searchEntry (pre ++ '<' :: (u ++ '>' :: rest)) = some (u, rel) := by
  induction pre with
  | nil =>
    intro u rest rel _ hne hgt hn hm
    simp only [List.nil_append, searchEntry, if_pos rfl]
    rw [tryG1_closed u [] rest rel hne hgt hn hm]
    simp
  | cons c pre2 ih =>
    intro u rest rel hpre hne hgt hn hm
    simp only [List.cons_append]
    rw [searchEntry_cons_ne c _ (hpre c (List.mem_cons_self _ _))]
    exact ih u rest rel (fun x hx => hpre x (List.mem_cons_of_mem _ hx)) hne hgt hn hm

lemma searchEntry_render (sp : List Char) (e : LinkEntry)
    (hsp : ∀ c ∈ sp, c = ' ') (hu : goodUrl e.url) (hr : goodRel e.rel) :
    searchEntry (sp ++ renderEntryL e) = some (e.url, e.rel) := by
  have hm : matchRelPart (';' :: (' ' :: ('r' :: 'e' :: 'l' :: '=' :: '"' :: (e.rel ++ '"' :: [])))) =
      some e.rel := by
    have := matchRelPart_closed [' '] e.rel [] (by intro c hc; simp at hc; rw [hc]; rfl)
      hr.1 hr.2.1 hr.2.2.1
    simpa using this
  have hchunk := searchEntry_chunk sp e.url
    (';' :: (' ' :: ('r' :: 'e' :: 'l' :: '=' :: '"' :: (e.rel ++ '"' :: []))))
    e.rel (fun c hc => by rw [hsp c hc]; decide) hu.1 hu.2.1 hu.2.2.1 hm
  have hshape : renderEntryL e =
      '<' :: (e.url ++ '>' :: (';' :: (' ' :: ('r' :: 'e' :: 'l' :: '=' :: '"' ::
        (e.rel ++ '"' :: []))))) := by
    simp [renderEntryL]
  rw [hshape]
  exact hchunk

lemma splitOnComma_noComma (a : List Char) (ha : ',' ∉ a) : splitOnComma a = [a] := by
  induction a with
  | nil => rfl
  | cons c a2 ih =>
    have hc : ¬ c = ',' := fun hh => ha (by rw [← hh]; exact List.mem_cons_self _ _)
    simp only [splitOnComma, if_neg hc]
    rw [ih (fun hh => ha (List.mem_cons_of_mem _ hh))]

lemma splitOnComma_append (a : List Char) : ∀ b : List Char, ',' ∉ a →
    splitOnComma (a ++ ',' :: b) = a :: splitOnComma b := by
  induction a with
  | nil =>
    intro b _
    simp [splitOnComma]
  | cons c a2 ih =>
    intro b ha
    have hc : ¬ c = ',' := fun hh => ha (by rw [← hh]; exact List.mem_cons_self _ _)
    simp only [List.cons_append, splitOnComma, if_neg hc]
    rw [show (a2.append (',' :: b) : List Char) = a2 ++ ',' :: b from rfl]
    rw [ih b (fun hh => ha (List.mem_cons_of_mem _ hh))]

lemma splitOnComma_ne_nil (l : List Char) : splitOnComma l ≠ [] := by
  cases l with
  | nil => simp [splitOnComma]
  | cons c rest =>
    simp only [splitOnComma]
    by_cases h : c = ','
    · rw [if_pos h]; simp
    · rw [if_neg h]
      cases h2 : splitOnComma rest <;> simp

lemma splitOnComma_space (l : List Char) :
    splitOnComma (' ' :: l) =
      (' ' :: (splitOnComma l).headI) :: (splitOnComma l).tail := by
  have hs : ¬ ' ' = ',' := by decide
  simp only [splitOnComma, if_neg hs]
  cases h : splitOnComma l with
  | nil => exact absurd h (splitOnComma_ne_nil l)
  | cons x xs => simp

lemma joinComma_chunks (xs : List (List Char)) : ∀ x : List Char, ',' ∉ x →
    (∀ r ∈ xs, ',' ∉ r) →
    splitOnComma (joinComma (x :: xs)) = x :: xs.map (fun r => ' ' :: r) := by
  induction xs with
  | nil =>
    intro x hx _
    exact splitOnComma_noComma x hx
  | cons y ys ih =>
    intro x hx hys
    show splitOnComma (x ++ ',' :: ' ' :: joinComma (y :: ys)) = _
    rw [splitOnComma_append x (' ' :: joinComma (y :: ys)) hx]
    rw [splitOnComma_space]
    rw [ih y (hys y (List.mem_cons_self _ _)) (fun r hr => hys r (List.mem_cons_of_mem _ hr))]
    simp

lemma renderEntry_noComma (e : LinkEntry) (hu : ',' ∉ e.url) (hr : ',' ∉ e.rel) :
    ',' ∉ renderEntryL e := by
  intro h
  have h2 : (',' ∈ e.url) ∨ (',' ∈ e.rel) := by
    simpa [renderEntryL] using h
  rcases h2 with h2 | h2
  · exact hu h2
  · exact hr h2

lemma linkStep_render (d : List (String × Option Nat)) (sp : List Char) (e : LinkEntry)
    (hsp : ∀ c ∈ sp, c = ' ') (hu : goodUrl e.url) (hr : goodRel e.rel) :
    linkStep d (sp ++ renderEntryL e) = entryStep d e := by
  simp only [linkStep, searchEntry_render sp e hsp hu hr, entryStep]

lemma foldl_chunks (es : List LinkEntry) : ∀ d : List (String × Option Nat),
    (∀ e ∈ es, goodUrl e.url ∧ goodRel e.rel) →
    List.foldl linkStep d (es.map (fun e => ' ' :: renderEntryL e)) =
      List.foldl entryStep d es := by
  induction es with
  | nil => intro d _; rfl
  | cons e es2 ih =>
    intro d hwf
    simp only [List.map_cons, List.foldl_cons]
    have h1 : linkStep d (' ' :: renderEntryL e) = entryStep d e := by
      have := linkStep_render d [' '] e (by intro c hc; simpa using hc)
        (hwf e (List.mem_cons_self _ _)).1 (hwf e (List.mem_cons_self _ _)).2
      simpa using this
    rw [h1]
    exact ih (entryStep d e) (fun x hx => hwf x (List.mem_cons_of_mem _ hx))

lemma parse_renderHeader (es : List LinkEntry)
    (hwf : ∀ e ∈ es, goodUrl e.url ∧ goodRel e.rel) :
    parse_link_header (renderHeader es) =
      List.foldl entryStep [("next", none), ("prev", none)] es := by
  cases es with
  | nil => rfl
  | cons e es2 =>
    have hwfe := hwf e (List.mem_cons_self _ _)
    have hne : ¬ renderHeader (e :: es2) = "" := by
      intro hh
      have h2 := congrArg String.toList hh
      simp only [renderHeader] at h2
      cases es2 with
      | nil => simp [joinComma, renderEntryL] at h2
      | cons f es3 => simp [joinComma, renderEntryL] at h2
    simp only [parse_link_header, if_neg hne]
    have htl : (renderHeader (e :: es2)).toList =
        joinComma (renderEntryL e :: es2.map renderEntryL) := rfl
    rw [htl]
    rw [joinComma_chunks (es2.map renderEntryL) (renderEntryL e)
      (renderEntry_noComma e hwfe.1.2.2.2 hwfe.2.2.2.2)
      (by
        intro r hr
        rcases List.mem_map.mp hr with ⟨x, hx, hrx⟩
        rw [← hrx]
        exact renderEntry_noComma x (hwf x (List.mem_cons_of_mem _ hx)).1.2.2.2
          (hwf x (List.mem_cons_of_mem _ hx)).2.2.2.2)]
    simp only [List.foldl_cons]
    have hl0 := linkStep_render [("next", none), ("prev", none)] [] e
      (by intro c hc; cases hc) hwfe.1 hwfe.2
    simp only [List.nil_append] at hl0
    rw [hl0]
    rw [List.map_map]
    have hcomp : ((fun r => ' ' :: r) ∘ renderEntryL) = (fun x => ' ' :: renderEntryL x) := rfl
    rw [hcomp]
    exact foldl_chunks es2 _ (fun x hx => hwf x (List.mem_cons_of_mem _ hx))

lemma pyGet_pyDictSet (d : List (String × Option Nat)) : ∀ (k kk : String) (n : Nat),
    pyGet (pyDictSet d k n) kk = if k = kk then some n else pyGet d kk := by
  induction d with
  | nil =>
    intro k kk n
    simp only [pyDictSet, pyGet]
  | cons p rest ih =>
    intro k kk n
    rcases p with ⟨k0, v0⟩
    by_cases h0 : k0 = k
    · subst h0
      simp only [pyDictSet, if_pos rfl, pyGet]
      by_cases h1 : k0 = kk
      · simp [h1]
      · simp [h1]
    · simp only [pyDictSet, if_neg h0, pyGet]
      by_cases h1 : k0 = kk
      · rw [if_pos h1]
        rw [if_neg (fun hh => h0 (h1.trans hh.symm))]
        rw [if_pos h1]
      · rw [if_neg h1, ih k kk n, if_neg h1]

lemma pyGet_foldl_entryStep (es : List LinkEntry) : ∀ (d : List (String × Option Nat)) (k : String),
    pyGet (List.foldl entryStep d es) k =
      match lastPageR k es with
      | some n => some n
      | none => pyGet d k := by
  induction es with
  | nil => intro d k; rfl
  | cons e rest ih =>
    intro d k
    simp only [List.foldl_cons, lastPageR]
    rw [ih (entryStep d e) k]
    cases hrest : lastPageR k rest with
    | some n => rfl
    | none =>
      simp only []
      unfold entryStep
      cases hsp : searchPage e.url with
      | some n =>
        rw [pyGet_pyDictSet]
        by_cases hk : String.mk e.rel = k
        · rw [if_pos hk, if_pos hk]
        · rw [if_neg hk, if_neg hk]
      | none =>
        by_cases hk : String.mk e.rel = k
        · rw [if_pos hk]
        · rw [if_neg hk]

/-- Claim C5: over every well-formed Link header — rendered from entries
whose URLs avoid `>`, newline and comma and whose relation labels avoid
quote, newline and comma — `parse_link_header` returns under "next" and
"prev" exactly the page numbers of the (last) entries with those relation
labels (absent when no such entry carries a `page=` component); the empty
header yields both absent; and the spec's example header parses to
next = 2, prev = 1. -/
theorem claim_C5_codec :
    (∀ es : List LinkEntry, (∀ e ∈ es, goodUrl e.url ∧ goodRel e.rel) →
      pyGet (parse_link_header (renderHeader es)) "next" = lastPageR "next" es ∧
      pyGet (parse_link_header (renderHeader es)) "prev" = lastPageR "prev" es) ∧
    parse_link_header "" = [("next", none), ("prev", none)] ∧
    parse_link_header "<https://x/y?page=2>; rel=\"next\", <https://x/y?page=1>; rel=\"prev\"" =
      [("next", some 2), ("prev", some 1)] := by
  refine ⟨?_, rfl, by decide⟩
  intro es hwf
  rw [parse_renderHeader es hwf, pyGet_foldl_entryStep es _ "next",
    pyGet_foldl_entryStep es _ "prev"]
  constructor
  · cases lastPageR "next" es <;> rfl
  · cases lastPageR "prev" es <;> rfl

/-- Witness for C5 on the spec's two-entry example rendered from entries. -/
theorem claim_C5_codec_witness :
    pyGet (parse_link_header (renderHeader
        [⟨"https://x/y?page=2".toList, "next".toList⟩,
         ⟨"https://x/y?page=1".toList, "prev".toList⟩])) "next" = some 2 ∧
    pyGet (parse_link_header (renderHeader
        [⟨"https://x/y?page=2".toList, "next".toList⟩,
         ⟨"https://x/y?page=1".toList, "prev".toList⟩])) "prev" = some 1 := by
  have h := claim_C5_codec.1
    [⟨"https://x/y?page=2".toList, "next".toList⟩,
     ⟨"https://x/y?page=1".toList, "prev".toList⟩]
    (by
      intro e he
      simp only [List.mem_cons, List.not_mem_nil, or_false] at he
      rcases he with rfl | rfl <;>
        exact ⟨by unfold goodUrl; decide, by unfold goodRel; decide⟩)
  refine ⟨h.1.trans (by decide), h.2.trans (by decide)⟩

lemma mem_keys_cons (k k0 : String) (v0 : Option Nat) (rest : List (String × Option Nat)) :
    k ∈ (((k0, v0) :: rest).map Prod.fst) ↔ k = k0 ∨ k ∈ rest.map Prod.fst := by
  rw [List.map_cons, List.mem_cons]

lemma mem_keys_pyDictSet (d : List (String × Option Nat)) : ∀ (key k : String) (n : Nat),
    k ∈ (pyDictSet d key n).map Prod.fst → k ∈ d.map Prod.fst ∨ k = key := by
  induction d with
  | nil =>
    intro key k n h
    rw [pyDictSet, mem_keys_cons] at h
    rcases h with h | h
    · exact Or.inr h
    · simp at h
  | cons p rest ih =>
    intro key k n h
    rcases p with ⟨k0, v0⟩
    by_cases h0 : k0 = key
    · rw [pyDictSet, if_pos h0, mem_keys_cons] at h
      rcases h with h | h
      · exact Or.inl ((mem_keys_cons k k0 v0 rest).mpr (Or.inl h))
      · exact Or.inl ((mem_keys_cons k k0 v0 rest).mpr (Or.inr h))
    · rw [pyDictSet, if_neg h0, mem_keys_cons] at h
      rcases h with h | h
      · exact Or.inl ((mem_keys_cons k k0 v0 rest).mpr (Or.inl h))
      · rcases ih key k n h with h2 | h2
        · exact Or.inl ((mem_keys_cons k k0 v0 rest).mpr (Or.inr h2))
        · exact Or.inr h2

lemma mem_keys_pyDictSet_of_mem (d : List (String × Option Nat)) : ∀ (key k : String) (n : Nat),
    k ∈ d.map Prod.fst → k ∈ (pyDictSet d key n).map Prod.fst := by
  induction d with
  | nil => intro key k n h; simp at h
  | cons p rest ih =>
    intro key k n h
    rcases p with ⟨k0, v0⟩
    rw [mem_keys_cons] at h
    by_cases h0 : k0 = key
    · rw [pyDictSet, if_pos h0, mem_keys_cons]
      exact h
    · rw [pyDictSet, if_neg h0, mem_keys_cons]
      rcases h with h | h
      · exact Or.inl h
      · exact Or.inr (ih key k n h)

lemma mem_keys_linkStep (d : List (String × Option Nat)) (c : List Char) (k : String)
    (h : k ∈ d.map Prod.fst) : k ∈ (linkStep d c).map Prod.fst := by
  unfold linkStep
  cases hse : searchEntry c with
  | none => exact h
  | some p =>
    rcases p with ⟨url, rel⟩
    show k ∈ (match searchPage url with
      | some n => pyDictSet d (String.mk rel) n
      | none => d).map Prod.fst
    cases searchPage url with
    | none => exact h
    | some n => exact mem_keys_pyDictSet_of_mem d _ k n h

lemma mem_keys_foldl (chunks : List (List Char)) : ∀ (d : List (String × Option Nat)) (k : String),
    k ∈ d.map Prod.fst → k ∈ (List.foldl linkStep d chunks).map Prod.fst := by
  induction chunks with
  | nil => intro d k h; exact h
  | cons c cs ih =>
    intro d k h
    exact ih (linkStep d c) k (mem_keys_linkStep d c k h)

lemma mem_keys_foldl_source (chunks : List (List Char)) :
    ∀ (d : List (String × Option Nat)) (k : String),
    k ∈ (List.foldl linkStep d chunks).map Prod.fst →
    k ∈ d.map Prod.fst ∨
      ∃ c ∈ chunks, ∃ url rel, searchEntry c = some (url, rel) ∧
        String.mk rel = k ∧ (searchPage url).isSome = true := by
  induction chunks with
  | nil => intro d k h; exact Or.inl h
  | cons c cs ih =>
    intro d k h
    rcases ih (linkStep d c) k h with h2 | ⟨c2, hc2, url, rel, hse, hrel, hsp⟩
    · unfold linkStep at h2
      cases hse : searchEntry c with
      | none =>
        simp only [hse] at h2
        exact Or.inl h2
      | some p =>
        rcases p with ⟨url, rel⟩
        simp only [hse] at h2
        cases hsp : searchPage url with
        | none =>
          simp only [hsp] at h2
          exact Or.inl h2
        | some n =>
          simp only [hsp] at h2
          rcases mem_keys_pyDictSet d _ k n h2 with h3 | h3
          · exact Or.inl h3
          · exact Or.inr ⟨c, List.mem_cons_self _ _,
              url, rel, hse, by rw [h3], by rw [hsp]; rfl⟩
    · exact Or.inr ⟨c2, List.mem_cons_of_mem _ hc2, url, rel, hse, hrel, hsp⟩

/-- Claim C6 counterexample: an entry with relation label "last" carrying a
page number is not ignored — it is recorded under its own key, so the result
does not contain exactly the two keys next and prev. -/
theorem claim_C6_cex :
    (parse_link_header "<https://x/y?page=5>; rel=\"last\"").map Prod.fst =
      ["next", "prev", "last"] ∧
    (parse_link_header "<https://x/y?page=5>; rel=\"last\"").map Prod.fst ≠
      ["next", "prev"] := by
  exact ⟨by decide, by decide⟩

/-- Claim C6 (amended): `parse_link_header` is total and degrades gracefully:
the keys "next" and "prev" are always present in the result; any other key
arises only from a chunk whose entry matched the regex with that relation
label and whose URL carries a page number (so unrecognized relations are
recorded under their own key rather than ignored); and a chunk that fails
the entry regex leaves the dictionary unchanged, without aborting the parse
of the remaining chunks. -/
theorem claim_C6_parse_total :
    (∀ s : String, "next" ∈ (parse_link_header s).map Prod.fst ∧
      "prev" ∈ (parse_link_header s).map Prod.fst) ∧
    (∀ (s : String) (k : String), k ∈ (parse_link_header s).map Prod.fst →
      k = "next" ∨ k = "prev" ∨
        ∃ c ∈ splitOnComma s.toList, ∃ url rel, searchEntry c = some (url, rel) ∧
          String.mk rel = k ∧ (searchPage url).isSome = true) ∧
    (∀ (d : List (String × Option Nat)) (c : List Char),
      searchEntry c = none → linkStep d c = d) := by
  refine ⟨?_, ?_, ?_⟩
  · intro s
    unfold parse_link_header
    by_cases h : s = ""
    · rw [if_pos h]
      exact ⟨by decide, by decide⟩
    · rw [if_neg h]
      exact ⟨mem_keys_foldl _ _ _ (by decide), mem_keys_foldl _ _ _ (by decide)⟩
  · intro s k h
    unfold parse_link_header at h
    by_cases hs : s = ""
    · rw [if_pos hs] at h
      simp only [List.map_cons, List.map_nil, List.mem_cons, List.mem_singleton] at h
      rcases h with h | h
      · exact Or.inl h
      · simp only [List.not_mem_nil, or_false] at h
        exact Or.inr (Or.inl h)
    · rw [if_neg hs] at h
      rcases mem_keys_foldl_source _ _ _ h with h2 | h2
      · simp only [List.map_cons, List.map_nil, List.mem_cons, List.mem_singleton,
          List.not_mem_nil, or_false] at h2
        rcases h2 with h2 | h2
        · exact Or.inl h2
        · exact Or.inr (Or.inl h2)
      · exact Or.inr (Or.inr h2)
  · intro d c h
    simp [linkStep, h]

/-- Witness for the amended C6: the key "last" in the counterexample header
is traced back to its matching chunk. -/
theorem claim_C6_parse_total_witness :
    "last" = "next" ∨ "last" = "prev" ∨
      ∃ c ∈ splitOnComma ("<https://x/y?page=5>; rel=\"last\"" : String).toList,
        ∃ url rel, searchEntry c = some (url, rel) ∧
          String.mk rel = "last" ∧ (searchPage url).isSome = true :=
  claim_C6_parse_total.2.1 "<https://x/y?page=5>; rel=\"last\"" "last" (by decide)
